import Mathlib

/-!
Shallow embedding of the EmployeeTask application (Node/Express backend in
`server.js` with its controllers, plus the React dashboards) together with
proofs of the specification's testable properties.

Conventions of the embedding:
  - Mongo ObjectIds are modelled as `Nat`.
  - Dates that the code normalizes to local midnight (`setHours(0,0,0,0)`)
    are modelled as `Int` day numbers; an absent (`undefined`/`null`) date is
    `Option.none`.
  - An `ErrorResponse` carries the message and HTTP status code exactly as the
    backend's `ErrorResponse(message, statusCode)` class does.
  - Mutating controllers return the HTTP result paired with the resulting task
    store; on the error branches the store is returned unchanged, since the
    code returns before touching the repository.
  - The bcrypt comparison (delegated to a library and out of scope) is a
    function parameter `matchPw`.
-/

namespace App

/-- The user roles of the Mongoose `UserSchema` (`enum: ['employee','admin']`). -/
inductive Role where
  | employee
  | admin
deriving DecidableEq, Repr

/-- A persisted user record (`models/User.js`): the fields the controllers read. -/
structure User where
  id : Nat
  name : String
  email : String
  passwordHash : String
  role : Role
  department : String
deriving DecidableEq, Repr

/-- A persisted task record (`models/Task.js`). `dueDate` is optional; `status`
and `priority` are the schema's string enums. -/
structure Task where
  id : Nat
  title : String
  description : Option String
  status : String
  priority : String
  dueDate : Option Int
  employeeId : Nat
  createdAt : Int
deriving DecidableEq, Repr

/-- The backend's `ErrorResponse(message, statusCode)`. -/
structure ErrorResponse where
  message : String
  statusCode : Nat
deriving DecidableEq, Repr

/-- Whether an `Except` result is a success (a 2xx response). -/
def isOkE {α : Type} : Except ErrorResponse α → Bool
  | .ok _ => true
  | .error _ => false

namespace EmployeeDashboard

/-- The overdue predicate of the employee dashboard's `filteredTasks`
(`case 'overdue'`): no due date is excluded; otherwise the midnight-normalized
due date must be strictly before today and the status must not be `Done`. -/
def isOverdue (today : Int) (t : Task) : Bool :=
  match t.dueDate with
  | none => false
  | some d => decide (d < today) && !(t.status == "Done")

/-- The employee dashboard's `filteredTasks` switch over the quick-filter
selection (`todo`, `inprogress`, `review`, `done`, `urgent`, `high`,
`overdue`, default `all`). -/
def filteredTasks (filter : String) (today : Int) (tasks : List Task) : List Task :=
  if filter == "todo" then tasks.filter (fun t => t.status == "To Do")
  else if filter == "inprogress" then tasks.filter (fun t => t.status == "In Progress")
  else if filter == "review" then tasks.filter (fun t => t.status == "Review")
  else if filter == "done" then tasks.filter (fun t => t.status == "Done")
  else if filter == "urgent" then tasks.filter (fun t => t.priority == "Urgent")
  else if filter == "high" then tasks.filter (fun t => t.priority == "High")
  else if filter == "overdue" then tasks.filter (isOverdue today)
  else tasks

end EmployeeDashboard

namespace Backend

/-- The body of a `PUT /api/tasks/:id` request: the optional fields
`findByIdAndUpdate` merges into the stored document. -/
structure TaskPatch where
  title : Option String
  description : Option String
  status : Option String
  priority : Option String
  dueDate : Option (Option Int)
deriving DecidableEq, Repr

/-- Merge a patch body into a task, as `findByIdAndUpdate(id, req.body)` does. -/
def applyPatch (p : TaskPatch) (t : Task) : Task :=
  { t with
    title := p.title.getD t.title
    description := (p.description.map some).getD t.description
    status := p.status.getD t.status
    priority := p.priority.getD t.priority
    dueDate := p.dueDate.getD t.dueDate }

/-- Lookup of a task by id, as `Task.findById`. -/
def findTask (tasks : List Task) (taskId : Nat) : Option Task :=
  tasks.find? (fun t => t.id == taskId)

/-- The `updateTask` controller: 404 when the id is absent, 401 denial when the
actor is neither admin nor the owner, otherwise the patched task is stored and
returned. The second component is the resulting task store. -/
def updateTask (actor : User) (taskId : Nat) (patch : TaskPatch) (tasks : List Task) :
    Except ErrorResponse Task × List Task :=
  match findTask tasks taskId with
  | none => (.error ⟨"No task with the id of " ++ toString taskId, 404⟩, tasks)
  | some task =>
    if actor.role ≠ Role.admin ∧ actor.id ≠ task.employeeId then
      (.error ⟨"Not authorized to update this task", 401⟩, tasks)
    else
      (.ok (applyPatch patch task),
       tasks.map (fun t => if t.id == taskId then applyPatch patch t else t))

/-- The `deleteTask` controller: 404 when the id is absent, 401 denial when the
actor is neither admin nor the owner, otherwise the task is removed. -/
def deleteTask (actor : User) (taskId : Nat) (tasks : List Task) :
    Except ErrorResponse Unit × List Task :=
  match findTask tasks taskId with
  | none => (.error ⟨"No task with the id of " ++ toString taskId, 404⟩, tasks)
  | some task =>
    if actor.role ≠ Role.admin ∧ actor.id ≠ task.employeeId then
      (.error ⟨"Not authorized to delete this task", 401⟩, tasks)
    else
      (.ok (), tasks.filter (fun t => !(t.id == taskId)))

/-- The public response body built by `sendTokenResponse` (token generation is
delegated to the JWT library and out of scope). -/
structure Session where
  id : Nat
  name : String
  email : String
  role : Role
  department : String
deriving DecidableEq, Repr

/-- The `login` controller. `matchPw` is the bcrypt comparison of the entered
password against the stored hash. Both the missing-user branch and the
password-mismatch branch answer with the same `Invalid credentials` 401. -/
def login (matchPw : String → String → Bool) (users : List User)
    (email password : String) : Except ErrorResponse Session :=
  if email = "" ∨ password = "" then
    .error ⟨"Please provide an email and password", 400⟩
  else
    match users.find? (fun u => u.email == email) with
    | none => .error ⟨"Invalid credentials", 401⟩
    | some u =>
      if matchPw password u.passwordHash then
        .ok ⟨u.id, u.name, u.email, u.role, u.department⟩
      else
        .error ⟨"Invalid credentials", 401⟩

/-- The `getEmployeeTasks` controller: the user-existence check (404) runs
before the admin-or-self authorization check (401). -/
def getEmployeeTasks (actor : User) (paramId : Nat) (users : List User)
    (tasks : List Task) : Except ErrorResponse (List Task) :=
  match users.find? (fun u => u.id == paramId) with
  | none => .error ⟨"No user with the id of " ++ toString paramId, 404⟩
  | some _ =>
    if actor.role ≠ Role.admin ∧ actor.id ≠ paramId then
      .error ⟨"Not authorized to access these tasks", 401⟩
    else
      .ok (tasks.filter (fun t => t.employeeId == paramId))

/-- The worksheet column headers added by `exportTasks`. -/
def exportHeaders : List String :=
  ["Task ID", "Title", "Description", "Status", "Priority", "Due Date",
   "Employee", "Department", "Created At"]

/-- One worksheet row built by the `worksheet.addRow` call of `exportTasks`:
the task fields with the populated owner name and department, the
`No date set` sentinel for an absent due date, and rendered dates. -/
def taskRow (users : List User) (t : Task) : List String :=
  let emp := users.find? (fun u => u.id == t.employeeId)
  [toString t.id, t.title, t.description.getD "", t.status, t.priority,
   (match t.dueDate with | none => "No date set" | some d => toString d),
   (match emp with | none => "" | some u => u.name),
   (match emp with | none => "" | some u => u.department),
   toString t.createdAt]

/-- The task selection of `exportTasks`: a truthy department parameter other
than `all` restricts to tasks owned by employees of that department, else all
tasks are exported. The `startDate`/`endDate` query parameters are never read
by the controller. -/
def selectExportTasks (department : Option String) (users : List User)
    (tasks : List Task) : List Task :=
  match department with
  | some d =>
    if d ≠ "" ∧ d ≠ "all" then
      let employeeIds := (users.filter (fun u => u.department == d)).map (fun u => u.id)
      tasks.filter (fun t => employeeIds.contains t.employeeId)
    else tasks
  | none => tasks

/-- The generated workbook: the header row followed by one row per task, with
the header row set bold. -/
structure Workbook where
  rows : List (List String)
  headerBold : Bool
deriving DecidableEq, Repr

/-- The `exportTasks` controller: a non-admin actor is denied with 401;
otherwise the workbook is built from the selected tasks. -/
def exportTasks (actor : User) (department : Option String) (users : List User)
    (tasks : List Task) : Except ErrorResponse Workbook :=
  if actor.role ≠ Role.admin then
    .error ⟨"Not authorized to export tasks", 401⟩
  else
    let selected := selectExportTasks department users tasks
    .ok ⟨exportHeaders :: selected.map (taskRow users), true⟩

end Backend

/-- Whether the first character list is a prefix of the second. -/
def listPre : List Char → List Char → Bool
  | [], _ => true
  | _ :: _, [] => false
  | a :: as, b :: bs => a == b && listPre as bs

/-- Whether the first character list occurs as a contiguous sublist of the
second; the model of JavaScript `String.prototype.includes`. -/
def listSub (needle : List Char) (hay : List Char) : Bool :=
  match hay with
  | [] => needle.isEmpty
  | _ :: t => listPre needle hay || listSub needle t

/-- `hay.includes(needle)` on strings. -/
def strIncludes (hay needle : String) : Bool :=
  listSub needle.data hay.data

/-- The model of `toLowerCase()`. -/
def lowerStr (s : String) : String :=
  String.mk (s.data.map Char.toLower)

/-- The model of `trim()`: strip leading and trailing whitespace. -/
def trimStr (s : String) : String :=
  String.mk (((s.data.dropWhile Char.isWhitespace).reverse.dropWhile
    Char.isWhitespace).reverse)

/-- The owner projection embedded in each task returned by `GET /api/tasks`
(`employee: {_id, name, department}`). -/
structure EmployeeRef where
  id : Nat
  name : String
  department : String
deriving DecidableEq, Repr

/-- A task as the admin dashboard receives it: task fields plus the owner
projection. -/
structure AdminTask where
  id : Nat
  title : String
  description : Option String
  status : String
  priority : String
  dueDate : Option Int
  createdAt : Int
  employee : EmployeeRef
deriving DecidableEq, Repr

namespace AdminDashboard

/-- The date-range state set by `DateRangePicker`: either bound may be null. -/
structure DateRange where
  startDate : Option Int
  endDate : Option Int
deriving DecidableEq, Repr

/-- The admin dashboard's `filteredTasks` pipeline: department filter, then the
date-range filter (tasks without a due date are dropped while it is active,
each present bound is compared inclusively against the midnight-normalized due
date), then the free-text search (lowercased term matched against title, the
truthy description, and the owner name) when the trimmed search term is
nonempty. -/
def filteredTasks (selectedDepartment : String) (dateRange : Option DateRange)
    (searchTerm : String) (tasks : List AdminTask) : List AdminTask :=
  let f1 :=
    if selectedDepartment == "all" then tasks
    else tasks.filter (fun t => t.employee.department == selectedDepartment)
  let f2 :=
    match dateRange with
    | none => f1
    | some dr => f1.filter (fun t =>
        match t.dueDate with
        | none => false
        | some d =>
          (match dr.startDate with | none => true | some sd => decide (sd ≤ d)) &&
          (match dr.endDate with | none => true | some ed => decide (d ≤ ed)))
  if trimStr searchTerm == "" then f2
  else
    let term := lowerStr searchTerm
    f2.filter (fun t =>
      strIncludes (lowerStr t.title) term ||
      (match t.description with
       | none => false
       | some ds => !(ds == "") && strIncludes (lowerStr ds) term) ||
      strIncludes (lowerStr t.employee.name) term)

/-- The listing order applied in `fetchTasksAndDepartments`:
`sort((a, b) => new Date(b.createdAt) - new Date(a.createdAt))`, a stable sort
by descending created timestamp. -/
def sortTasks (tasks : List AdminTask) : List AdminTask :=
  List.insertionSort (fun a b => b.createdAt ≤ a.createdAt) tasks

/-- The options collected by `ExportModal`: format, department, and an optional
date range whose bounds are the raw date-input strings (empty when unset). -/
structure ExportOptions where
  exportType : String
  department : String
  dateRange : Option (String × String)
deriving DecidableEq, Repr

/-- The filename built in `handleExport`:
`tasks-<department-or-all-departments><-start-date-digits>.<xlsx-or-pdf>`. -/
def mkExportFilename (o : ExportOptions) : String :=
  let department := if o.department == "all" then "all-departments" else o.department
  let dateStr :=
    match o.dateRange with
    | some r => if r.1 == "" then "" else "-" ++ (r.1.replace "-" "")
    | none => ""
  let extension := if o.exportType == "excel" then "xlsx" else "pdf"
  "tasks-" ++ department ++ dateStr ++ "." ++ extension

/-- The saved export artifact: the client-side filename together with the rows
of the workbook the backend formatter builds from the task sequence. -/
structure ExportArtifact where
  filename : String
  rows : List (List String)
deriving DecidableEq, Repr

/-- An export invocation over a fixed resolved task sequence: the filename
comes from the options, the rows from the formatter pass over the tasks. -/
def exportArtifact (o : ExportOptions) (users : List User) (tasks : List Task) :
    ExportArtifact :=
  ⟨mkExportFilename o, Backend.exportHeaders :: tasks.map (Backend.taskRow users)⟩

end AdminDashboard

/-- A sample task due yesterday relative to day 10, not Done. -/
def taskYesterday : Task :=
  ⟨1, "t1", none, "To Do", "Medium", some 9, 1, 0⟩

/-- A sample task due today relative to day 10. -/
def taskToday : Task :=
  ⟨2, "t2", none, "To Do", "Medium", some 10, 1, 0⟩

/-- A sample Done task with a long-past due date. -/
def taskDone : Task :=
  ⟨3, "t3", none, "Done", "Medium", some 0, 1, 0⟩

/-- A sample task with no due date. -/
def taskNoDue : Task :=
  ⟨4, "t4", none, "To Do", "Medium", none, 1, 0⟩

/-- A sample task owned by employee 1. -/
def taskOwned : Task := ⟨7, "owned", none, "To Do", "Medium", none, 1, 0⟩

/-- A sample non-admin actor who does not own `taskOwned`. -/
def actorOther : User := ⟨2, "Eve", "eve@example.com", "h2", Role.employee, "Sales"⟩

/-- An empty patch body. -/
def emptyPatch : Backend.TaskPatch := ⟨none, none, none, none, none⟩

/-- A sample registered user. -/
def userAlice : User := ⟨1, "Alice", "alice@example.com", "hash1", Role.employee, "Engineering"⟩

/-- A sample administrator. -/
def adminUser : User := ⟨10, "Admin", "admin@example.com", "hash0", Role.admin, "Management"⟩

instance : IsTotal AdminTask (fun a b => b.createdAt ≤ a.createdAt) :=
  ⟨fun a b => le_total b.createdAt a.createdAt⟩

instance : IsTrans AdminTask (fun a b => b.createdAt ≤ a.createdAt) :=
  ⟨fun _ _ _ hab hbc => le_trans hbc hab⟩

theorem filteredTasks_overdue_eq (today : Int) (tasks : List Task) :
    EmployeeDashboard.filteredTasks "overdue" today tasks =
      tasks.filter (EmployeeDashboard.isOverdue today) := rfl

/-- C3: in the overdue quick filter, a task due yesterday with status other
than Done is included; a task due today is excluded; a Done task is excluded
regardless of due date; a task with no due date is excluded. -/
theorem overdue_filter_spec (today : Int) (tasks : List Task) (t : Task) :
    (t ∈ tasks → t.dueDate = some (today - 1) → t.status ≠ "Done" →
      t ∈ EmployeeDashboard.filteredTasks "overdue" today tasks)
    ∧ (t.dueDate = some today → t ∉ EmployeeDashboard.filteredTasks "overdue" today tasks)
    ∧ (t.status = "Done" → t ∉ EmployeeDashboard.filteredTasks "overdue" today tasks)
    ∧ (t.dueDate = none → t ∉ EmployeeDashboard.filteredTasks "overdue" today tasks) := by
  rw [filteredTasks_overdue_eq]
  refine ⟨?_, ?_, ?_, ?_⟩
  · intro hmem hdue hstatus
    refine List.mem_filter.mpr ⟨hmem, ?_⟩
    simp [EmployeeDashboard.isOverdue, hdue, hstatus]
  · intro hdue hmem
    have h := (List.mem_filter.mp hmem).2
    simp [EmployeeDashboard.isOverdue, hdue] at h
  · intro hstatus hmem
    have h := (List.mem_filter.mp hmem).2
    cases hd : t.dueDate with
    | none => simp [EmployeeDashboard.isOverdue, hd] at h
    | some d => simp [EmployeeDashboard.isOverdue, hd, hstatus] at h
  · intro hdue hmem
    have h := (List.mem_filter.mp hmem).2
    simp [EmployeeDashboard.isOverdue, hdue] at h

/-- Witness for C3 at day 10 on four concrete tasks. -/
theorem overdue_filter_spec_witness :
    (taskYesterday ∈ EmployeeDashboard.filteredTasks "overdue" 10
      [taskYesterday, taskToday, taskDone, taskNoDue])
    ∧ (taskToday ∉ EmployeeDashboard.filteredTasks "overdue" 10
      [taskYesterday, taskToday, taskDone, taskNoDue])
    ∧ (taskDone ∉ EmployeeDashboard.filteredTasks "overdue" 10
      [taskYesterday, taskToday, taskDone, taskNoDue])
    ∧ (taskNoDue ∉ EmployeeDashboard.filteredTasks "overdue" 10
      [taskYesterday, taskToday, taskDone, taskNoDue]) :=
  ⟨(overdue_filter_spec 10 [taskYesterday, taskToday, taskDone, taskNoDue]
      taskYesterday).1 (by decide) (by decide) (by decide),
   (overdue_filter_spec 10 [taskYesterday, taskToday, taskDone, taskNoDue]
      taskToday).2.1 (by decide),
   (overdue_filter_spec 10 [taskYesterday, taskToday, taskDone, taskNoDue]
      taskDone).2.2.1 (by decide),
   (overdue_filter_spec 10 [taskYesterday, taskToday, taskDone, taskNoDue]
      taskNoDue).2.2.2 (by decide)⟩

/-- C1: for a stored task T and any authenticated actor, update and delete
succeed exactly when the actor is an admin or owns T; in every other case both
controllers answer with the policy-denial error (401, the spec's Forbidden web
mapping) and the task store is unchanged. -/
theorem update_delete_policy (actor : User) (T : Task) (patch : Backend.TaskPatch)
    (tasks : List Task) (hT : Backend.findTask tasks T.id = some T) :
    (isOkE (Backend.updateTask actor T.id patch tasks).1 = true ↔
      (actor.role = Role.admin ∨ actor.id = T.employeeId))
    ∧ (isOkE (Backend.deleteTask actor T.id tasks).1 = true ↔
      (actor.role = Role.admin ∨ actor.id = T.employeeId))
    ∧ (¬(actor.role = Role.admin ∨ actor.id = T.employeeId) →
      Backend.updateTask actor T.id patch tasks =
        (.error ⟨"Not authorized to update this task", 401⟩, tasks)
      ∧ Backend.deleteTask actor T.id tasks =
        (.error ⟨"Not authorized to delete this task", 401⟩, tasks)) := by
  by_cases h : actor.role = Role.admin ∨ actor.id = T.employeeId
  · have hcond : ¬(actor.role ≠ Role.admin ∧ actor.id ≠ T.employeeId) := by
      rw [not_and_or, not_ne_iff, not_ne_iff]
      exact h.imp id id
    refine ⟨?_, ?_, fun hc => absurd h hc⟩ <;>
      simp [Backend.updateTask, Backend.deleteTask, hT, hcond, isOkE, h]
  · have hcond : actor.role ≠ Role.admin ∧ actor.id ≠ T.employeeId := by
      rw [not_or] at h
      exact h
    refine ⟨?_, ?_, fun _ => ?_⟩ <;>
      simp [Backend.updateTask, Backend.deleteTask, hT, hcond, isOkE, h]

/-- Witness for C1: a non-admin non-owner actor is denied on update and delete
of a concrete stored task, and the store is unchanged. -/
theorem update_delete_policy_witness :
    Backend.findTask [taskOwned] taskOwned.id = some taskOwned
    ∧ (¬(actorOther.role = Role.admin ∨ actorOther.id = taskOwned.employeeId)
      → Backend.updateTask actorOther taskOwned.id emptyPatch [taskOwned] =
          (.error ⟨"Not authorized to update this task", 401⟩, [taskOwned])
      ∧ Backend.deleteTask actorOther taskOwned.id [taskOwned] =
          (.error ⟨"Not authorized to delete this task", 401⟩, [taskOwned])) :=
  ⟨by decide,
   (update_delete_policy actorOther taskOwned emptyPatch [taskOwned] (by decide)).2.2⟩

/-- C4: a login attempt with an unregistered email and a login attempt with a
registered email but a non-matching password fail with the same
`Invalid credentials` 401 error, so the response does not reveal whether the
email exists. -/
theorem login_uniform_error (matchPw : String → String → Bool) (users : List User)
    (e1 p1 e2 p2 : String) (u : User)
    (he1 : e1 ≠ "") (hp1 : p1 ≠ "") (he2 : e2 ≠ "") (hp2 : p2 ≠ "")
    (h1 : users.find? (fun x => x.email == e1) = none)
    (h2 : users.find? (fun x => x.email == e2) = some u)
    (h3 : matchPw p2 u.passwordHash = false) :
    Backend.login matchPw users e1 p1 = .error ⟨"Invalid credentials", 401⟩
    ∧ Backend.login matchPw users e2 p2 = .error ⟨"Invalid credentials", 401⟩
    ∧ Backend.login matchPw users e1 p1 = Backend.login matchPw users e2 p2 := by
  have hA : Backend.login matchPw users e1 p1 = .error ⟨"Invalid credentials", 401⟩ := by
    simp [Backend.login, he1, hp1, h1]
  have hB : Backend.login matchPw users e2 p2 = .error ⟨"Invalid credentials", 401⟩ := by
    simp [Backend.login, he2, hp2, h2, h3]
  exact ⟨hA, hB, hA.trans hB.symm⟩

/-- Witness for C4: with a one-user store and equality as the hash comparison,
an unknown email and a wrong password produce identical errors. -/
theorem login_uniform_error_witness :
    ("bob@example.com" : String) ≠ ""
    ∧ [userAlice].find? (fun x => x.email == "bob@example.com") = none
    ∧ [userAlice].find? (fun x => x.email == "alice@example.com") = some userAlice
    ∧ (fun (p h : String) => p == h) "wrong" userAlice.passwordHash = false
    ∧ (Backend.login (fun p h => p == h) [userAlice] "bob@example.com" "pw"
        = .error ⟨"Invalid credentials", 401⟩
      ∧ Backend.login (fun p h => p == h) [userAlice] "alice@example.com" "wrong"
        = .error ⟨"Invalid credentials", 401⟩
      ∧ Backend.login (fun p h => p == h) [userAlice] "bob@example.com" "pw"
        = Backend.login (fun p h => p == h) [userAlice] "alice@example.com" "wrong") :=
  ⟨by decide, by decide, by decide, by decide,
   login_uniform_error (fun p h => p == h) [userAlice]
     "bob@example.com" "pw" "alice@example.com" "wrong" userAlice
     (by decide) (by decide) (by decide) (by decide)
     (by decide) (by decide) (by decide)⟩

/-- C10: listing tasks of an employee id absent from the user store fails with
the 404 NotFound error for every actor, admin or not, owner of the id or not:
the existence check runs before the authorization check. -/
theorem getEmployeeTasks_missing_user (actor : User) (paramId : Nat)
    (users : List User) (tasks : List Task)
    (hmissing : users.find? (fun u => u.id == paramId) = none) :
    Backend.getEmployeeTasks actor paramId users tasks =
      .error ⟨"No user with the id of " ++ toString paramId, 404⟩ := by
  simp [Backend.getEmployeeTasks, hmissing]

/-- Witness for C10: a non-admin actor who does not own id 99 still receives
the 404 error when the id is absent from the user store. -/
theorem getEmployeeTasks_missing_user_witness :
    ([userAlice].find? (fun u => u.id == 99) = none)
    ∧ actorOther.role ≠ Role.admin ∧ actorOther.id ≠ 99
    ∧ Backend.getEmployeeTasks actorOther 99 [userAlice] [taskOwned] =
      .error ⟨"No user with the id of " ++ toString 99, 404⟩ :=
  ⟨by decide, by decide, by decide,
   getEmployeeTasks_missing_user actorOther 99 [userAlice] [taskOwned] (by decide)⟩

/-- C9: an export requested by an administrator whose selected task set is
empty succeeds with a workbook holding only the header row. -/
theorem export_empty_ok (actor : User) (department : Option String)
    (users : List User) (tasks : List Task)
    (hrole : actor.role = Role.admin)
    (hempty : Backend.selectExportTasks department users tasks = []) :
    Backend.exportTasks actor department users tasks =
      .ok ⟨[Backend.exportHeaders], true⟩ := by
  simp [Backend.exportTasks, hrole, hempty]

/-- Witness for C9: an admin exporting the Marketing department from a store
whose only task is owned by an Engineering user gets a headers-only workbook. -/
theorem export_empty_ok_witness :
    adminUser.role = Role.admin
    ∧ Backend.selectExportTasks (some "Marketing") [userAlice] [taskOwned] = []
    ∧ Backend.exportTasks adminUser (some "Marketing") [userAlice] [taskOwned] =
      .ok ⟨[Backend.exportHeaders], true⟩ :=
  ⟨by decide, by decide,
   export_empty_ok adminUser (some "Marketing") [userAlice] [taskOwned]
     (by decide) (by decide)⟩

theorem filterFilter {α : Type} (p q : α → Bool) (l : List α) :
    (l.filter p).filter q = l.filter (fun a => p a && q a) := by
  induction l with
  | nil => rfl
  | cons a t ih =>
    cases hp : p a <;> cases hq : q a <;> simp [List.filter_cons, hp, hq, ih]

theorem filter_idem {α : Type} (p : α → Bool) (l : List α) :
    (l.filter p).filter p = l.filter p := by
  rw [filterFilter]
  exact List.filter_congr (fun a _ => Bool.and_self (p a))

theorem filter_pair_idem {α : Type} (p q : α → Bool) (l : List α) :
    ((((l.filter p).filter q).filter p).filter q) = (l.filter p).filter q := by
  rw [filterFilter p q l, filterFilter p q, filter_idem]

/-- C5: with only a start bound, the date-range filter keeps exactly the tasks
whose due date is present and at least the start bound; with both bounds it
keeps exactly the tasks whose due date lies in the inclusive window. -/
theorem dateRange_filter_spec (tasks : List AdminTask) (s e : Int) :
    AdminDashboard.filteredTasks "all" (some ⟨some s, none⟩) "" tasks =
      tasks.filter (fun t =>
        match t.dueDate with
        | none => false
        | some d => decide (s ≤ d))
    ∧ AdminDashboard.filteredTasks "all" (some ⟨some s, some e⟩) "" tasks =
      tasks.filter (fun t =>
        match t.dueDate with
        | none => false
        | some d => decide (s ≤ d ∧ d ≤ e)) := by
  have h1 : (("all" : String) == "all") = true := by decide
  have h2 : (trimStr "" == "") = true := by decide
  constructor <;>
  · simp only [AdminDashboard.filteredTasks, h1, h2, if_true]
    refine List.filter_congr (fun t _ => ?_)
    cases hdd : t.dueDate <;> simp [hdd]

/-- C6: selecting department Engineering and searching for bug in the admin
view keeps exactly the tasks whose owner's department is Engineering and whose
title, description, or owner name contains bug case-insensitively. -/
theorem admin_engineering_bug_search (tasks : List AdminTask) (t : AdminTask) :
    t ∈ AdminDashboard.filteredTasks "Engineering" none "bug" tasks ↔
      t ∈ tasks ∧ t.employee.department = "Engineering" ∧
        (strIncludes (lowerStr t.title) "bug" = true
         ∨ (∃ ds, t.description = some ds ∧ ds ≠ ""
             ∧ strIncludes (lowerStr ds) "bug" = true)
         ∨ strIncludes (lowerStr t.employee.name) "bug" = true) := by
  have h1 : (("Engineering" : String) == "all") = false := by decide
  have h2 : (trimStr "bug" == "") = false := by decide
  have h3 : lowerStr "bug" = "bug" := by decide
  simp only [AdminDashboard.filteredTasks, h1, h2, h3, Bool.false_eq_true, if_false]
  rw [List.mem_filter, List.mem_filter]
  cases hds : t.description with
  | none => simp [hds, beq_iff_eq, and_assoc, or_assoc]
  | some ds => simp [hds, beq_iff_eq, and_assoc, or_assoc]

/-- C7: applying the department filter followed by the text-search filter a
second time with the same filter values leaves the result unchanged. -/
theorem dept_search_filters_idempotent (dept term : String) (tasks : List AdminTask) :
    AdminDashboard.filteredTasks dept none term
        (AdminDashboard.filteredTasks dept none term tasks) =
      AdminDashboard.filteredTasks dept none term tasks := by
  by_cases hd : (dept == "all") = true <;> by_cases hs : (trimStr term == "") = true
  · simp [AdminDashboard.filteredTasks, hd, hs]
  · simp [AdminDashboard.filteredTasks, hd, hs, filter_idem]
  · simp [AdminDashboard.filteredTasks, hd, hs, filter_idem]
  · rw [Bool.not_eq_true] at hd hs
    simp only [AdminDashboard.filteredTasks, hd, hs, Bool.false_eq_true, if_false]
    exact filter_pair_idem _ _ _

/-- C8: the admin listing order sorts tasks so that every adjacent pair is in
descending created-timestamp order (newest first). -/
theorem admin_sort_newest_first (tasks : List AdminTask) :
    List.Chain' (fun a b : AdminTask => b.createdAt ≤ a.createdAt)
      (AdminDashboard.sortTasks tasks) := by
  have h : List.Sorted (fun a b : AdminTask => b.createdAt ≤ a.createdAt)
      (List.insertionSort (fun a b : AdminTask => b.createdAt ≤ a.createdAt) tasks) :=
    List.sorted_insertionSort _ tasks
  exact List.Pairwise.chain' h

/-- C2: over a fixed resolved task sequence, the export options (format,
department, date range) leave the rows of the artifact unchanged and are used
for the filename. -/
theorem export_params_affect_filename_only (users : List User) (tasks : List Task)
    (o1 o2 : AdminDashboard.ExportOptions) :
    (AdminDashboard.exportArtifact o1 users tasks).rows =
      (AdminDashboard.exportArtifact o2 users tasks).rows
    ∧ (AdminDashboard.exportArtifact o1 users tasks).filename =
      AdminDashboard.mkExportFilename o1 :=
  ⟨rfl, rfl⟩

end App
